import Mathlib

/-!
Verification of the classification and triage decision engine of
`src/pipeline/classify_llm.py`.

Python strings are embedded as `List Char`; Python float confidences are
embedded as rationals (every confidence constant in the source is an exact
two-decimal value, and the pipeline only ever compares, clamps, `min`s and
`max`es confidences, so the ordering of the embedded rationals coincides
with the ordering of the floats).  Dictionaries holding the in-flight
classification record become the structure `ClassRes`; a dict key that may
be absent becomes an `Option` field (absent `_locked` is `locked := false`,
absent `_extract_constraint_adjusted_from` is `adjusted_from := none`).
Fallible stages return `Except`.  Rational literals are written with
`mkRat` so that all definitions evaluate inside the kernel.
-/

/-- Python strings, embedded as lists of characters. -/
abbrev Str := List Char

/-- Leading-match test used to implement the Python substring operator:
`pyStarts hay needle` holds when `needle` is an initial segment of `hay`. -/
def pyStarts : Str → Str → Bool
  | _, [] => true
  | [], _ :: _ => false
  | c :: cs, d :: ds => c == d && pyStarts cs ds

/-- The Python expression `needle in hay` (substring containment). -/
def pyIn (needle : Str) : Str → Bool
  | [] => needle.isEmpty
  | c :: t => pyStarts (c :: t) needle || pyIn needle t

/-- The Python expression `s.lower()` (ASCII-faithful). -/
def lowerS (s : Str) : Str := s.map Char.toLower

/-- The Python expression `s.strip()`. -/
def pyStrip (s : Str) : Str :=
  ((s.dropWhile Char.isWhitespace).reverse.dropWhile Char.isWhitespace).reverse

/-- The Python expression `sep.join(parts)`. -/
def joinWith (sep : Str) (parts : List Str) : Str := List.intercalate sep parts

/-- The Python expression `Path(source_path).name`: the path component after
the last separator (the runs use forward-slash paths). -/
def pathName (s : Str) : Str :=
  s.foldl (fun acc c => if c = '/' then [] else acc ++ [c]) []

/-- The Python slice `t[-n:]` for `n > 0`: the last `n` characters. -/
def lastN (n : Nat) (t : Str) : Str := t.drop (t.length - n)

/-- The helper `has_any(terms, hay)` of `soft_override`: it lowercases the
haystack (`norm`) and tests each term for containment. -/
def hasAny (terms : List Str) (hay : Str) : Bool :=
  let h := lowerS hay
  terms.any (fun t => pyIn t h)

/-- The helper `has(needle, hay)` of `soft_override`. -/
def hasLow (needle : Str) (hay : Str) : Bool := pyIn needle (lowerS hay)

/-- The environment default `UNKNOWN_LABEL = "unmapped_other"`
(classify_llm.py line 14). -/
def UNKNOWN_LABEL : Str := "unmapped_other".data

/-- The environment default `CLF_LOW_CONF_THRESHOLD = 0.65` (line 15). -/
def LOW_CONF_THRESHOLD : ℚ := mkRat 65 100

/-- The environment default `CLASSIFY_SAMPLE_CHARS = 6000` (line 18). -/
def SAMPLE_CHARS : Nat := 6000

/-- Extract payload of one document record, as produced by the extraction
stage and consumed by `build_sample`.  `text` models
`extract_obj.get("text", "") or ""`; `slides i` models
`slides.get(i, {})` as a `(title, body)` pair with `("", "")` for a missing
slide; `schemaJson` models the string `json.dumps(schema)` (the JSON
serializer is deterministic, so its output is embedded directly). -/
structure ExtractObj where
  text : Str
  slides : Nat → Str × Str
  schemaJson : Str

/-- The slide fragment `"[Slide i] title\nbody"`. -/
def slidePart (i : Nat) (title body : Str) : Str :=
  "[Slide ".data ++ (toString i).data ++ "] ".data ++ title ++ "\n".data ++ body

/-- The function `build_sample(extract_type, extract_obj, max_chars)`
(classify_llm.py lines 81-114).  The Python head budget
`int(max_chars * 0.7)` is embedded as `max_chars * 7 / 10` in `Nat`. -/
def build_sample (extract_type : Str) (extract_obj : ExtractObj) (max_chars : Nat) : Str :=
  if extract_type = "text".data then
    let t := extract_obj.text
    if t.length ≤ max_chars then t
    else
      let joiner := "\n...\n".data
      let head_budget := max_chars * 7 / 10
      if max_chars < head_budget + joiner.length then
        -- the source branch `tail_budget < 0`: head budget becomes
        -- `max_chars`, the joiner becomes empty and the tail is dropped
        t.take max_chars
      else
        let tail_budget := max_chars - head_budget - joiner.length
        t.take head_budget ++ joiner ++
          (if 0 < tail_budget then lastN tail_budget t else [])
  else if extract_type = "slides".data then
    let parts := ([1, 2, 3].filterMap fun i =>
      let si := extract_obj.slides i
      if si.1 = [] ∧ si.2 = [] then none
      else some (slidePart i si.1 si.2))
    (joinWith "\n\n".data parts).take max_chars
  else if extract_type = "xlsx_schema".data then
    extract_obj.schemaJson.take max_chars
  else []

/-- The in-flight classification record: the dict that flows from
`coerce_to_allowed` through `soft_override` and
`enforce_extract_constraints` to the ledger row.  Underscore-private dict
keys are plain fields here: `coerced` is `_coerced`, `model_doc_type` is
`_model_doc_type`, `locked` is `_locked` (a missing key is `false`),
`adjusted_from` is `_extract_constraint_adjusted_from` (a missing key is
`none`). -/
structure ClassRes where
  doc_type : Str
  doc_subtype : Str
  confidence : ℚ
  evidence : List Str
  coerced : Bool
  model_doc_type : Option Str
  proposed_new_label : Str
  uncertainty_reason : Str
  locked : Bool
  adjusted_from : Option Str
deriving DecidableEq

/-- Raw oracle output as returned by `classify_sample` after JSON cleanup.
`doc_type` is `data.get("doc_type")` (`none` for a missing key);
`confidence` is `none` when the key is missing or its value does not parse
as a float, in which case `coerce_to_allowed` falls back to its defaults;
`evidence` is already list-normalized. -/
structure RawOut where
  doc_type : Option Str
  doc_subtype : Option Str
  confidence : Option ℚ
  evidence : List Str
  proposed_new_label : Option Str
  uncertainty_reason : Option Str

/-- The function `coerce_to_allowed(data, allowed, unknown_label)`
(classify_llm.py lines 196-236): bound evidence and subtype, remember the
oracle label, and either keep an allowed label (confidence clamped to
`[0, 1]`) or coerce to the unknown sentinel (confidence clamped to
`[0, 0.6]`). -/
def coerce_to_allowed (data : RawOut) (allowed : List Str) (unknown_label : Str) : ClassRes :=
  let ev := (data.evidence.take 5).map (fun x => x.take 120)
  let subtype := (data.doc_subtype.getD []).take 160
  let pn := pyStrip (data.proposed_new_label.getD [])
  let ur := pyStrip (data.uncertainty_reason.getD [])
  let isAllowed : Bool :=
    match data.doc_type with
    | some l => decide (l ∈ allowed)
    | none => false
  if isAllowed then
    { doc_type := data.doc_type.getD [], doc_subtype := subtype,
      confidence := min (max (data.confidence.getD (mkRat 1 2)) 0) 1,
      evidence := ev, coerced := false, model_doc_type := data.doc_type,
      proposed_new_label := pn, uncertainty_reason := ur,
      locked := false, adjusted_from := none }
  else
    { doc_type := unknown_label, doc_subtype := subtype,
      confidence := min (max (data.confidence.getD (mkRat 4 10)) 0) (mkRat 6 10),
      evidence := ev, coerced := true, model_doc_type := data.doc_type,
      proposed_new_label := pn, uncertainty_reason := ur,
      locked := false, adjusted_from := none }

/-- Evaluation context of the override engine: the pieces of
the closure of `soft_override` that never change while the rules run.
`spathL` is `norm(source_path)`, `fnameL` is `filename.lower()`, `hay` is
the composed lowercase haystack. -/
structure OvCtx where
  spathL : Str
  fnameL : Str
  hay : Str
  extract_type : Str
  allowed : List Str
  synonyms_map : Str → List Str
  patterns_map : Str → List Str

/-- The haystack composed at the top of `soft_override` (lines 258-266):
`" ".join([norm(source_path), norm(doc_subtype), norm(sample), norm(filename)])`. -/
def sorHay (source_path doc_subtype sample : Str) : Str :=
  joinWith " ".data
    [lowerS source_path, lowerS doc_subtype, lowerS sample, lowerS (pathName source_path)]

/-- Context constructor matching the top of `soft_override`. -/
def mkOvCtx (result : ClassRes) (source_path extract_type sample : Str)
    (synonyms_map patterns_map : Str → List Str) (allowed : List Str) : OvCtx :=
  { spathL := lowerS source_path, fnameL := lowerS (pathName source_path),
    hay := sorHay source_path result.doc_subtype sample,
    extract_type := extract_type, allowed := allowed,
    synonyms_map := synonyms_map, patterns_map := patterns_map }

/-- The helper `set_label(lbl, conf_floor, lock)` of `soft_override`
(lines 269-283): honour an existing lock, otherwise apply the label when it
is allowed, raise the confidence to at least the floor, and optionally
lock. -/
def set_label (ctx : OvCtx) (r : ClassRes) (lbl : Str) (conf_floor : ℚ) (lock : Bool) : ClassRes :=
  if r.locked then r
  else
    let r1 := if lbl ∈ ctx.allowed ∧ r.doc_type ≠ lbl then { r with doc_type := lbl } else r
    let r2 := { r1 with confidence := max r1.confidence conf_floor }
    if lock then { r2 with locked := true } else r2

/-- The list `release_markers` (line 289). -/
def release_markers : List Str :=
  ["for immediate release".data, "media contact".data, "###".data]

/-- The list `_boilerplate` of the pitch conflict rule (line 302). -/
def pitch_boilerplate : List Str :=
  ["for immediate release".data, "media contact".data, "###".data]

/-- The list `_placeholders` of the pitch conflict rule (lines 303-323). -/
def pitch_placeholders : List Str :=
  ["contact name".data, "contact email".data, "contact phone".data,
   "[contact".data, "<contact".data, "xxx".data,
   "january xx".data, "january xx,".data, "jan xx".data, "jan xx,".data,
   " los angeles—xx".data, " los angeles — xx".data, " los angeles–xx".data,
   " los angeles xx".data, " los angeles, xx".data, " los angeles,  xx".data,
   " xx, 20".data, " xx 20".data]

/-- Rule: press release markers in the haystack (lines 288-291). -/
def rRelMarkers (ctx : OvCtx) (r : ClassRes) : ClassRes :=
  if hasAny release_markers ctx.hay then
    set_label ctx r "press_release".data (mkRat 90 100) true
  else r

/-- Rule: the filename contains "release" (lines 293-295). -/
def rRelFname (ctx : OvCtx) (r : ClassRes) : ClassRes :=
  if pyIn "release".data ctx.fnameL then
    set_label ctx r "press_release".data (mkRat 90 100) true
  else r

/-- The surgical pitch conflict rule (lines 297-334): a "pitch" filename
whose body still shows release boilerplate and unfilled placeholders is
forced to `pitch_email` with the confidence capped at 0.60 and locked.
The source assigns the dict directly instead of calling `set_label`, so no
lock check happens here. -/
def rPitchConflict (ctx : OvCtx) (r : ClassRes) : ClassRes :=
  if pyIn "pitch".data ctx.fnameL then
    if hasAny pitch_boilerplate ctx.hay ∧ hasAny pitch_placeholders ctx.hay then
      if "pitch_email".data ∈ ctx.allowed then
        { r with doc_type := "pitch_email".data,
                 confidence := min r.confidence (mkRat 60 100),
                 locked := true }
      else r
    else r
  else r

/-- Rule: media response (lines 337-358). -/
def rMediaResponse (ctx : OvCtx) (r : ClassRes) : ClassRes :=
  if ¬ r.locked ∧ ¬ hasLow "talking points".data ctx.hay ∧
      (hasAny
        ["data request response".data, "data request".data, "media inquiry".data,
         "q&a".data, "responses below".data, "as requested".data] ctx.hay ∨
       pyIn "data request response".data ctx.fnameL ∨
       pyIn "fox response".data ctx.fnameL ∨
       pyIn "lat data request".data ctx.fnameL) then
    set_label ctx r "media_response".data (mkRat 91 100) true
  else r

/-- Rule: interview guide by filename (lines 361-365). -/
def rInterviewFname (ctx : OvCtx) (r : ClassRes) : ClassRes :=
  if pyIn "interview guide".data ctx.fnameL ∧ ¬ r.locked then
    if "interview_guide".data ∈ ctx.allowed then
      set_label ctx r "interview_guide".data (mkRat 90 100) true
    else
      set_label ctx r "interview_question_bank".data (mkRat 90 100) true
  else r

/-- Rule: "media list" filename on a spreadsheet (lines 367-369). -/
def rXlsxMediaList (ctx : OvCtx) (r : ClassRes) : ClassRes :=
  if ctx.extract_type = "xlsx_schema".data ∧ pyIn "media list".data ctx.fnameL then
    set_label ctx r "media_list".data (mkRat 90 100) true
  else r

/-- Rule: "statement" filename without release markers (lines 371-374). -/
def rStatement (ctx : OvCtx) (r : ClassRes) : ClassRes :=
  if pyIn "statement".data ctx.fnameL ∧ ¬ hasAny release_markers ctx.hay then
    if "press_statement".data ∈ ctx.allowed then
      set_label ctx r "press_statement".data (mkRat 90 100) false
    else r
  else r

/-- Rule: speaking tracker by filename on a spreadsheet (lines 376-379). -/
def rSpeakingFname (ctx : OvCtx) (r : ClassRes) : ClassRes :=
  if pyIn "speaking opportunities".data ctx.fnameL ∧
      ctx.extract_type = "xlsx_schema".data then
    if "speaking_tracker".data ∈ ctx.allowed then
      set_label ctx r "speaking_tracker".data (mkRat 90 100) true
    else r
  else r

/-- Rule: conference proposal (lines 381-396). -/
def rConference (ctx : OvCtx) (r : ClassRes) : ClassRes :=
  if (pyIn "conferences".data ctx.spathL ∨ pyIn "conference".data ctx.spathL) ∧
      hasAny
        ["proposal".data, "application".data, "session".data, "workshop".data,
         "learning objectives".data, "abstract".data, "cfp".data] ctx.hay then
    set_label ctx r "conference_proposal".data (mkRat 90 100) true
  else r

/-- Rule: editorial calendar on a spreadsheet (lines 398-420). -/
def rEditorialCal (ctx : OvCtx) (r : ClassRes) : ClassRes :=
  if ctx.extract_type = "xlsx_schema".data ∧
      (hasLow "editorial calendar".data ctx.hay ∨
       hasAny ["\"editorial calendar".data, "content calendar".data,
               "social calendar".data] ctx.hay ∨
       hasAny ["\"january\"".data, "\"february\"".data, "\"march\"".data,
               "\"april\"".data, "\"may\"".data, "\"june\"".data,
               "\"july\"".data, "\"august\"".data, "\"september\"".data,
               "\"october\"".data, "\"november\"".data, "\"december\"".data]
         ctx.hay) then
    set_label ctx r "editorial_calendar".data (mkRat 90 100) true
  else r

/-- Rule: media analysis plan (lines 422-434). -/
def rMediaAnalysisPlan (ctx : OvCtx) (r : ClassRes) : ClassRes :=
  if pyIn "media analysis plan".data ctx.fnameL ∨
      hasAny
        ["guiding question".data, "research question".data, "methodology".data,
         "time frame".data, "limitations".data, "scope".data] ctx.hay then
    set_label ctx r "work_plan|strategy_memo".data (mkRat 90 100) true
  else r

/-- Rule: interview guides by haystack (lines 436-451). -/
def rInterviewHay (ctx : OvCtx) (r : ClassRes) : ClassRes :=
  if hasAny
      ["interview guide".data, "stakeholder interview".data,
       "interview objectives".data, "interview questions".data] ctx.hay then
    let want :=
      if "interview_guide".data ∈ ctx.allowed then "interview_guide".data
      else "interview_question_bank".data
    set_label ctx r want (mkRat 90 100) true
  else r

/-- Rule: workback plan (lines 453-455). -/
def rWorkback (ctx : OvCtx) (r : ClassRes) : ClassRes :=
  if hasAny ["work back plan".data, "workback".data, "reverse timeline".data]
      ctx.hay then
    set_label ctx r "workback_plan".data (mkRat 90 100) false
  else r

/-- Rule: timeline by filename or path (lines 457-462). -/
def rTimeline (ctx : OvCtx) (r : ClassRes) : ClassRes :=
  if (pyIn "timeline".data ctx.fnameL ∨ pyIn "timeline".data ctx.spathL) ∧
      ¬ hasAny ["stakeholder interview".data, "interview".data] ctx.hay then
    if "timeline".data ∈ ctx.allowed then
      set_label ctx r "timeline".data (mkRat 90 100) false
    else r
  else r

/-- Rule: speaking tracker by haystack with fallbacks (lines 464-474). -/
def rSpeakingHay (ctx : OvCtx) (r : ClassRes) : ClassRes :=
  if hasAny ["speaking opportunities".data, "call for speakers".data, "cfp".data]
      ctx.hay then
    if "speaking_tracker".data ∈ ctx.allowed then
      set_label ctx r "speaking_tracker".data (mkRat 90 100) false
    else if "competitive_analysis".data ∈ ctx.allowed then
      set_label ctx r "competitive_analysis".data (mkRat 85 100) false
    else if "media_list".data ∈ ctx.allowed then
      set_label ctx r "media_list".data (mkRat 85 100) false
    else r
  else r

/-- Rule: donation and fundraising copy (lines 476-488). -/
def rDonations (ctx : OvCtx) (r : ClassRes) : ClassRes :=
  if hasAny
      ["givebutter".data, "donation page".data, "donor cta".data, "donate".data,
       "your gift".data, "make a gift".data] ctx.hay then
    set_label ctx r "platform_copy_edits".data (mkRat 90 100) false
  else r

/-- Rule: pitch or embargo filename without release markers (lines 490-494). -/
def rPitchEmbargo (ctx : OvCtx) (r : ClassRes) : ClassRes :=
  if (pyIn "pitch".data ctx.fnameL ∨ pyIn "embargo".data ctx.fnameL) ∧
      ¬ hasAny release_markers ctx.hay then
    set_label ctx r "pitch_email".data (mkRat 92 100) true
  else r

/-- Rule: bio or profile (lines 496-500). -/
def rBio (ctx : OvCtx) (r : ClassRes) : ClassRes :=
  if ¬ r.locked ∧ hasAny
      [" bio".data, "biograph".data, "panelist".data, "about the speaker".data,
       "headshot".data] ctx.hay then
    set_label ctx r "bio_profile".data (mkRat 90 100) false
  else r

/-- Rule: talking points correction (lines 502-504). -/
def rTalkingPoints (ctx : OvCtx) (r : ClassRes) : ClassRes :=
  if hasLow "talking points".data ctx.hay ∧
      r.doc_type = "platform_copy_edits".data then
    set_label ctx r "talking_points".data (mkRat 90 100) true
  else r

/-- Token list of one label for the generic vote (lines 521-526):
lowercased synonyms, lowercased must-any patterns, and the label itself
with underscores replaced by spaces. -/
def voteTokens (ctx : OvCtx) (lab : Str) : List Str :=
  (ctx.synonyms_map lab).map lowerS ++ (ctx.patterns_map lab).map lowerS ++
    [lowerS (lab.map (fun c => if c = '_' then ' ' else c))]

/-- Hit count of one label for the generic vote (line 527): the number of
distinct nonempty tokens found in the haystack. -/
def voteHits (ctx : OvCtx) (lab : Str) : Nat :=
  ((voteTokens ctx lab).dedup.filter
    (fun t => ¬ t = [] ∧ pyIn t ctx.hay = true)).length

/-- The generic token-overlap vote (lines 506-538): runs only when the
record is not locked; picks the first strictly-best-scoring label; applies
it only when the score is at least 2, the confidence is below 0.85 or the
current label is in the generic bucket, the candidate is allowed, and the
candidate differs from the current label. -/
def genericVote (ctx : OvCtx) (r : ClassRes) : ClassRes :=
  let conf_now := r.confidence
  let current := r.doc_type
  let generic : List Str := ["press_statement".data, "messaging_one_pager".data]
  if r.locked then r
  else
    let best := ctx.allowed.foldl
      (fun (b : Str × Nat) lab =>
        let hits := voteHits ctx lab
        if hits > b.2 then (lab, hits) else b)
      (current, 0)
    if 2 ≤ best.2 ∧ (conf_now < mkRat 85 100 ∨ current ∈ generic) ∧
        best.1 ∈ ctx.allowed ∧ best.1 ≠ current then
      { r with doc_type := best.1, confidence := max conf_now (mkRat 88 100) }
    else r

/-- Rules 4 onward of the override engine (everything after the pitch
conflict rule), in source order, ending with the generic vote. -/
def sorRest (ctx : OvCtx) (r : ClassRes) : ClassRes :=
  genericVote ctx
    (rTalkingPoints ctx (rBio ctx (rPitchEmbargo ctx (rDonations ctx
      (rSpeakingHay ctx (rTimeline ctx (rWorkback ctx (rInterviewHay ctx
        (rMediaAnalysisPlan ctx (rEditorialCal ctx (rConference ctx
          (rSpeakingFname ctx (rStatement ctx (rXlsxMediaList ctx
            (rInterviewFname ctx (rMediaResponse ctx r))))))))))))))))

/-- The full ordered rule chain of `soft_override` before the final
`result.pop("_locked", None)`. -/
def sorCore (ctx : OvCtx) (r : ClassRes) : ClassRes :=
  sorRest ctx (rPitchConflict ctx (rRelFname ctx (rRelMarkers ctx r)))

/-- The function `soft_override(result, source_path, extract_type, sample,
synonyms_map, patterns_map, allowed)` (lines 239-541): compose the
haystack, run the ordered rules and the generic vote, then strip the
transient `_locked` key before returning. -/
def soft_override (result : ClassRes) (source_path extract_type sample : Str)
    (synonyms_map patterns_map : Str → List Str) (allowed : List Str) : ClassRes :=
  let ctx := mkOvCtx result source_path extract_type sample
    synonyms_map patterns_map allowed
  { sorCore ctx result with locked := false }

/-- The allowed-label subset per extract kind, the dict
`ALLOWED_BY_EXTRACT` (lines 546-557).  `text` maps to no restriction, as
does any unknown extract type (`dict.get` returns `None` for both). -/
def ALLOWED_BY_EXTRACT (extract_type : Str) : Option (List Str) :=
  if extract_type = "xlsx_schema".data then
    some ["editorial_calendar".data, "media_list".data, "coverage_tracker".data,
          "story_bank".data, "speaking_tracker".data, "competitive_analysis".data]
  else if extract_type = "slides".data then
    some ["deck|training_materials".data, "deck|analysis_report".data]
  else none

/-- The function `enforce_extract_constraints(data, extract_type, hay,
filename)` (lines 560-663): when the current label violates the subset for
the extract kind, pick a replacement from ordered format-specific cues,
record the original label in the audit field and cap the confidence at
0.85.  The caller passes `hay` already lowercased. -/
def enforce_extract_constraints (data : ClassRes) (extract_type : Str)
    (hay : Str) (filename : Str) : ClassRes :=
  match ALLOWED_BY_EXTRACT extract_type with
  | none => data
  | some allowed =>
    if data.doc_type ∈ allowed then data
    else
      let fname := lowerS filename
      let guess : Option Str :=
        if extract_type = "xlsx_schema".data then
          if pyIn "story bank".data hay ∨ pyIn "story bank".data fname then
            (if "story_bank".data ∈ allowed then some "story_bank".data else none)
          else if ["peer org".data, "peer organizations".data, "competitive".data,
                   "competitor".data, "benchmark".data, "matrix".data,
                   "rubric".data, "criteria".data].any (fun k => pyIn k hay) then
            (if "competitive_analysis".data ∈ allowed then
              some "competitive_analysis".data else none)
          else if pyIn "media list".data hay ∨ pyIn "media list".data fname then
            some "media_list".data
          else if pyIn "calendar".data hay then
            some "editorial_calendar".data
          else if ["reporter".data, "outlet".data, "beat".data, "email".data].any
              (fun k => pyIn k hay) then
            some "media_list".data
          else if ["coverage".data, "headline".data, "link".data, "status".data,
                   "published".data, "url".data, "earned media".data].any
              (fun k => pyIn k hay) then
            some "coverage_tracker".data
          else if ["speaking".data, "cfp".data, "call for speakers".data].any
              (fun k => pyIn k hay) then
            some (if "speaking_tracker".data ∈ allowed then
              "speaking_tracker".data else "media_list".data)
          else
            some "media_list".data
        else if extract_type = "slides".data then
          if ["analysis".data, "findings".data, "insights".data, "kpi".data].any
              (fun k => pyIn k hay) then
            (if "deck|analysis_report".data ∈ allowed then
              some "deck|analysis_report".data else none)
          else
            (if "deck|training_materials".data ∈ allowed then
              some "deck|training_materials".data else none)
        else none
      match guess with
      | some g =>
        -- `if guess and guess in allowed:` (every candidate label is a
        -- nonempty string, so truthiness is membership)
        if g ∈ allowed then
          { data with adjusted_from := some data.doc_type, doc_type := g,
                      confidence := min data.confidence (mkRat 85 100) }
        else data
      | none => data

/-- The haystack composed in `main` for the constraint enforcer
(lines 743-745): `" ".join([spath, doc_subtype, sample]).lower()`. -/
def mainHay (spath doc_subtype sample : Str) : Str :=
  lowerS (joinWith " ".data [spath, doc_subtype, sample])

/-- Static per-run configuration: the taxonomy labels, the synonyms map and
the must-any patterns map, as loaded from the YAML configuration files in
`main` (lines 676-679). -/
structure RunCfg where
  labels : List Str
  synonyms_map : Str → List Str
  patterns_map : Str → List Str

/-- The per-document stage chain inside the `try` block of `main`
(lines 738-746): coercion, overrides, constraint enforcement. -/
def classifyOne (cfg : RunCfg) (raw : RawOut) (spath ekind sample : Str) : ClassRes :=
  let data := coerce_to_allowed raw cfg.labels UNKNOWN_LABEL
  let data := soft_override data spath ekind sample
    cfg.synonyms_map cfg.patterns_map cfg.labels
  enforce_extract_constraints data ekind
    (mainHay spath data.doc_subtype sample) (pathName spath)

/-- One input record of `extracted.jsonl` (lines 722-732).  `ekind` is
`r.get("extract", {}).get("type")`, embedded as `""` for a missing type
(no stage distinguishes a missing type from an unknown string). -/
structure Rec where
  sha : Str
  source_path : Str
  ekind : Str
  extract : ExtractObj

/-- One row of the classification ledger `classified.csv` (lines 761-770). -/
structure Row where
  source_path : Str
  sha : Str
  doc_type : Str
  doc_subtype : Str
  clf_confidence : ℚ
  extract_type : Str
deriving DecidableEq

/-- One row of the triage queue `triage_needs_review.csv` (lines 781-795).
`triage_reasons` is kept as the list that the source joins with commas. -/
structure TriageRow where
  source_path : Str
  sha : Str
  extract_type : Str
  final_doc_type : Str
  model_doc_type : Str
  proposed_new_label : Str
  uncertainty_reason : Str
  clf_confidence : ℚ
  evidence : Str
  triage_reasons : List Str
deriving DecidableEq

/-- The display rounding `round(conf, 2)` (lines 767 and 791), embedded as
half-up rounding to hundredths via integer arithmetic.  Python rounds
half-to-even, which differs only at exact half-cent values; no confidence
produced by the pipeline constants sits on such a boundary. -/
def round2 (q : ℚ) : ℚ :=
  mkRat (Int.fdiv (2 * (q.num * 100) + q.den) (2 * q.den)) 100

/-- The triage reason list computed in `main` (lines 772-779). -/
def triageReasons (data : ClassRes) (conf : ℚ) : List Str :=
  (if data.coerced then ["suggested_label_not_in_taxonomy".data] else []) ++
  (if conf ≤ LOW_CONF_THRESHOLD then ["low_confidence".data] else []) ++
  (if data.adjusted_from.isSome then ["extract_constraint_adjustment".data] else [])

/-- The triage row appended in `main` (lines 781-795); `final_dt` is the
local variable `doc_type` of the loop body. -/
def mkTriage (rec : Rec) (final_dt : Str) (data : ClassRes) (conf : ℚ)
    (reasons : List Str) : TriageRow :=
  { source_path := rec.source_path, sha := rec.sha, extract_type := rec.ekind,
    final_doc_type := final_dt, model_doc_type := data.model_doc_type.getD [],
    proposed_new_label := data.proposed_new_label,
    uncertainty_reason := data.uncertainty_reason,
    clf_confidence := round2 conf,
    evidence := joinWith " | ".data (data.evidence.take 4),
    triage_reasons := reasons }

/-- Failures that escape the loop of `main`.  `nameErrorData` is the
`NameError` raised at line 774 (`if data.get("_coerced"):`) when the
`except` branch of the first processed document runs: that branch assigns
`raw_data` but never `data`, and `data` has no binding from an earlier
iteration. -/
inductive BatchErr where
  | nameErrorData
deriving DecidableEq

/-- One iteration of the document loop of `main` (lines 722-800).  The
oracle argument models `classify_sample` after its retry loop: `Except.ok`
is a parsed JSON reply, `Except.error` the terminal failure re-raised after
`MAX_RETRIES` attempts.  Returns the ledger rows and triage rows this
iteration appends, plus the binding of the loop-carried Python variable
`data` after the iteration (it is NOT reassigned on the skip path or on the
exception path, so it still refers to the previous document there). -/
def procOne (cfg : RunCfg) (oracle : Rec → Except Str RawOut) (seen : List Str)
    (prev : Option ClassRes) (rec : Rec) :
    Except BatchErr (List Row × List TriageRow × Option ClassRes) :=
  if rec.sha ≠ [] ∧ rec.sha ∈ seen then
    .ok ([], [], prev)
  else
    let sample := build_sample rec.ekind rec.extract SAMPLE_CHARS
    match oracle rec with
    | .ok raw =>
      let data := classifyOne cfg raw rec.source_path rec.ekind sample
      let conf := data.confidence
      let row : Row :=
        { source_path := rec.source_path, sha := rec.sha,
          doc_type := data.doc_type, doc_subtype := data.doc_subtype,
          clf_confidence := round2 conf, extract_type := rec.ekind }
      let reasons := triageReasons data conf
      let ts := if reasons = [] then []
        else [mkTriage rec data.doc_type data conf reasons]
      .ok ([row], ts, some data)
    | .error _ =>
      -- the except branch (lines 751-758): worst-case row values are set,
      -- but the triage block that follows reads the stale `data`
      let row : Row :=
        { source_path := rec.source_path, sha := rec.sha,
          doc_type := UNKNOWN_LABEL, doc_subtype := "unknown".data,
          clf_confidence := round2 (mkRat 3 10), extract_type := rec.ekind }
      match prev with
      | none => .error BatchErr.nameErrorData
      | some d =>
        let reasons := triageReasons d (mkRat 3 10)
        let ts := if reasons = [] then []
          else [mkTriage rec UNKNOWN_LABEL d (mkRat 3 10) reasons]
        .ok ([row], ts, some d)

/-- In-memory and on-disk state of `main` while the loop runs.
`persisted` is the content of `classified.csv` on disk; `rows` is the
in-memory list that starts from the previously persisted rows
(line 716). -/
structure LoopState where
  persisted : List Row
  rows : List Row
  triage_rows : List TriageRow
  data : Option ClassRes
deriving DecidableEq

/-- Projection of the error of an `Except`, for stating concrete aborted
runs decidably. -/
def exErr {ε α : Type} : Except ε α → Option ε
  | .error e => some e
  | .ok _ => none

/-- One loop iteration lifted to `LoopState`.  The loop body performs no
file write, so `persisted` is unchanged by every iteration. -/
def loopStep (cfg : RunCfg) (oracle : Rec → Except Str RawOut) (seen : List Str)
    (st : LoopState) (rec : Rec) : Except BatchErr LoopState :=
  match procOne cfg oracle seen st.data rec with
  | .ok (rs, ts, d) =>
    .ok { persisted := st.persisted, rows := st.rows ++ rs,
          triage_rows := st.triage_rows ++ ts, data := d }
  | .error e => .error e

/-- The document loop of `main` over the remaining records. -/
def loopRun (cfg : RunCfg) (oracle : Rec → Except Str RawOut) (seen : List Str)
    (st : LoopState) : List Rec → Except BatchErr LoopState
  | [] => .ok st
  | rec :: rest =>
    match loopStep cfg oracle seen st rec with
    | .ok st2 => loopRun cfg oracle seen st2 rest
    | .error e => .error e

/-- The single end-of-run write `df.to_csv(out)` (lines 803-804): the whole
in-memory row list replaces the ledger file at once. -/
def finalWrite (st : LoopState) : LoopState :=
  { st with persisted := st.rows }

/-- The function `main` from the resume setup onward (lines 699-805):
read the previously persisted ledger into `seen` hashes and the starting
row list, run the loop over all records, then write the ledger once.  An
uncaught exception aborts before the write. -/
def runMain (cfg : RunCfg) (oracle : Rec → Except Str RawOut) (csv0 : List Row)
    (recs : List Rec) : Except BatchErr LoopState :=
  match loopRun cfg oracle (csv0.map Row.sha)
      { persisted := csv0, rows := csv0, triage_rows := [], data := none } recs with
  | .ok st => .ok (finalWrite st)
  | .error e => .error e

/-- The abort conditions of `main` that run before the document loop
(lines 667-697): exit(1) when `OPENAI_API_KEY` is unset and exit(1) when
the extracted input file is missing.  The taxonomy labels are loaded
(line 678) but never checked, so the result does not depend on them. -/
def mainStartupAborts (apiKeySet : Bool) (extractedExists : Bool)
    (labels : List Str) : Bool :=
  !apiKeySet || !extractedExists

/-- Equality of run outcomes is decidable, so concrete runs can be checked
by `decide`. -/
instance instDecEqExcept {ε α : Type} [DecidableEq ε] [DecidableEq α] :
    DecidableEq (Except ε α) := fun a b =>
  match a, b with
  | .ok x, .ok y =>
    if h : x = y then .isTrue (by rw [h]) else .isFalse (by simp [h])
  | .error e, .error f =>
    if h : e = f then .isTrue (by rw [h]) else .isFalse (by simp [h])
  | .ok _, .error _ => .isFalse (by simp)
  | .error _, .ok _ => .isFalse (by simp)

/-- The guard of the pitch conflict rule, as one condition: pitch in the
filename, boilerplate and placeholders in the haystack, and `pitch_email`
allowed. -/
def pitchGuard (ctx : OvCtx) : Bool :=
  pyIn "pitch".data ctx.fnameL &&
  (hasAny pitch_boilerplate ctx.hay && hasAny pitch_placeholders ctx.hay) &&
  decide ("pitch_email".data ∈ ctx.allowed)

/-- The constant-empty synonyms and patterns maps, for concrete runs. -/
def emptyMap : Str → List Str := fun _ => []

/-- Concrete run configuration: a taxonomy holding only `press_release`. -/
def cfgPR : RunCfg := ⟨["press_release".data], emptyMap, emptyMap⟩

/-- Concrete run configuration: an empty taxonomy (no labels loaded). -/
def cfgEmptyTax : RunCfg := ⟨[], emptyMap, emptyMap⟩

/-- Concrete oracle reply proposing `press_release` at confidence 0.5. -/
def rawPR : RawOut := ⟨some "press_release".data, none, some (mkRat 1 2), [], none, none⟩

/-- Concrete oracle reply proposing the out-of-taxonomy label `foo` at
confidence 0.5. -/
def rawFoo : RawOut := ⟨some "foo".data, none, some (mkRat 1 2), [], none, none⟩

/-- Concrete spreadsheet extract payload whose serialized schema is `x`. -/
def xlsxObjX : ExtractObj := ⟨[], fun _ => ([], []), "x".data⟩

/-- Concrete text extract payload with body `hello`. -/
def textObjHello : ExtractObj := ⟨"hello".data, fun _ => ([], []), []⟩

/-- Concrete spreadsheet record named `a.xlsx`. -/
def recXlsxA : Rec := ⟨"aa".data, "a.xlsx".data, "xlsx_schema".data, xlsxObjX⟩

/-- Concrete text record named `m.docx`. -/
def recTextA : Rec := ⟨"aa".data, "m.docx".data, "text".data, textObjHello⟩

/-- Concrete in-flight record already coerced to the unknown sentinel. -/
def resUnmapped : ClassRes :=
  ⟨"unmapped_other".data, [], mkRat 1 2, [], true, some "foo".data, [], [], false, none⟩

/-- Concrete unlocked in-flight record with label `x`. -/
def resBase : ClassRes :=
  ⟨"x".data, [], mkRat 1 2, [], false, none, [], [], false, none⟩

/-- Concrete override context of a document whose filename holds both
`pitch` and `release` and whose body carries release boilerplate and an
unfilled placeholder. -/
def ctxPitchRelease : OvCtx :=
  mkOvCtx resUnmapped "media_pitch_release.docx".data "text".data
    "for immediate release [contact".data emptyMap emptyMap
    ["press_release".data, "pitch_email".data]

/-- Concrete ledger row whose hash `aa` matches `recTextA`. -/
def rowSeen : Row :=
  ⟨"m.docx".data, "aa".data, "press_release".data, [], mkRat 1 2, "text".data⟩

/-- A locked record passes through `set_label` unchanged. -/
theorem set_label_locked (ctx : OvCtx) (r : ClassRes) (lbl : Str) (fl : ℚ)
    (lk : Bool) (h : r.locked = true) : set_label ctx r lbl fl lk = r := by
  unfold set_label
  simp [h]

/-- The label written by `set_label` is either the incoming one or a member
of the allowed list. -/
theorem set_label_doc (ctx : OvCtx) (r : ClassRes) (lbl : Str) (fl : ℚ)
    (lk : Bool) :
    (set_label ctx r lbl fl lk).doc_type = r.doc_type ∨
    (set_label ctx r lbl fl lk).doc_type ∈ ctx.allowed := by
  unfold set_label
  by_cases h : r.locked
  · simp [h]
  · simp only [h]
    by_cases hm : lbl ∈ ctx.allowed ∧ r.doc_type ≠ lbl
    · right
      cases lk <;> simp [hm, hm.1]
    · left
      cases lk <;> simp [hm]

/-- Rules that go through `set_label` leave a locked record unchanged:
release markers rule. -/
theorem rRelMarkers_locked (ctx : OvCtx) (r : ClassRes) (h : r.locked = true) :
    rRelMarkers ctx r = r := by
  unfold rRelMarkers
  split
  · exact set_label_locked ctx r _ _ _ h
  · rfl

/-- Lock preservation: release filename rule. -/
theorem rRelFname_locked (ctx : OvCtx) (r : ClassRes) (h : r.locked = true) :
    rRelFname ctx r = r := by
  unfold rRelFname
  split
  · exact set_label_locked ctx r _ _ _ h
  · rfl

/-- Lock preservation: media response rule. -/
theorem rMediaResponse_locked (ctx : OvCtx) (r : ClassRes) (h : r.locked = true) :
    rMediaResponse ctx r = r := by
  unfold rMediaResponse
  split
  · exact set_label_locked ctx r _ _ _ h
  · rfl

/-- Lock preservation: interview guide filename rule. -/
theorem rInterviewFname_locked (ctx : OvCtx) (r : ClassRes) (h : r.locked = true) :
    rInterviewFname ctx r = r := by
  unfold rInterviewFname
  repeat' split
  all_goals first
    | rfl
    | exact set_label_locked ctx r _ _ _ h

/-- Lock preservation: spreadsheet media list rule. -/
theorem rXlsxMediaList_locked (ctx : OvCtx) (r : ClassRes) (h : r.locked = true) :
    rXlsxMediaList ctx r = r := by
  unfold rXlsxMediaList
  split
  · exact set_label_locked ctx r _ _ _ h
  · rfl

/-- Lock preservation: statement filename rule. -/
theorem rStatement_locked (ctx : OvCtx) (r : ClassRes) (h : r.locked = true) :
    rStatement ctx r = r := by
  unfold rStatement
  repeat' split
  all_goals first
    | rfl
    | exact set_label_locked ctx r _ _ _ h

/-- Lock preservation: speaking tracker filename rule. -/
theorem rSpeakingFname_locked (ctx : OvCtx) (r : ClassRes) (h : r.locked = true) :
    rSpeakingFname ctx r = r := by
  unfold rSpeakingFname
  repeat' split
  all_goals first
    | rfl
    | exact set_label_locked ctx r _ _ _ h

/-- Lock preservation: conference proposal rule. -/
theorem rConference_locked (ctx : OvCtx) (r : ClassRes) (h : r.locked = true) :
    rConference ctx r = r := by
  unfold rConference
  split
  · exact set_label_locked ctx r _ _ _ h
  · rfl

/-- Lock preservation: editorial calendar rule. -/
theorem rEditorialCal_locked (ctx : OvCtx) (r : ClassRes) (h : r.locked = true) :
    rEditorialCal ctx r = r := by
  unfold rEditorialCal
  split
  · exact set_label_locked ctx r _ _ _ h
  · rfl

/-- Lock preservation: media analysis plan rule. -/
theorem rMediaAnalysisPlan_locked (ctx : OvCtx) (r : ClassRes) (h : r.locked = true) :
    rMediaAnalysisPlan ctx r = r := by
  unfold rMediaAnalysisPlan
  split
  · exact set_label_locked ctx r _ _ _ h
  · rfl

/-- Lock preservation: interview guide haystack rule. -/
theorem rInterviewHay_locked (ctx : OvCtx) (r : ClassRes) (h : r.locked = true) :
    rInterviewHay ctx r = r := by
  unfold rInterviewHay
  split
  · exact set_label_locked ctx r _ _ _ h
  · rfl

/-- Lock preservation: workback plan rule. -/
theorem rWorkback_locked (ctx : OvCtx) (r : ClassRes) (h : r.locked = true) :
    rWorkback ctx r = r := by
  unfold rWorkback
  split
  · exact set_label_locked ctx r _ _ _ h
  · rfl

/-- Lock preservation: timeline rule. -/
theorem rTimeline_locked (ctx : OvCtx) (r : ClassRes) (h : r.locked = true) :
    rTimeline ctx r = r := by
  unfold rTimeline
  repeat' split
  all_goals first
    | rfl
    | exact set_label_locked ctx r _ _ _ h

/-- Lock preservation: speaking tracker haystack rule. -/
theorem rSpeakingHay_locked (ctx : OvCtx) (r : ClassRes) (h : r.locked = true) :
    rSpeakingHay ctx r = r := by
  unfold rSpeakingHay
  repeat' split
  all_goals first
    | rfl
    | exact set_label_locked ctx r _ _ _ h

/-- Lock preservation: donations rule. -/
theorem rDonations_locked (ctx : OvCtx) (r : ClassRes) (h : r.locked = true) :
    rDonations ctx r = r := by
  unfold rDonations
  split
  · exact set_label_locked ctx r _ _ _ h
  · rfl

/-- Lock preservation: pitch or embargo filename rule. -/
theorem rPitchEmbargo_locked (ctx : OvCtx) (r : ClassRes) (h : r.locked = true) :
    rPitchEmbargo ctx r = r := by
  unfold rPitchEmbargo
  split
  · exact set_label_locked ctx r _ _ _ h
  · rfl

/-- Lock preservation: bio rule. -/
theorem rBio_locked (ctx : OvCtx) (r : ClassRes) (h : r.locked = true) :
    rBio ctx r = r := by
  unfold rBio
  split
  · exact set_label_locked ctx r _ _ _ h
  · rfl

/-- Lock preservation: talking points rule. -/
theorem rTalkingPoints_locked (ctx : OvCtx) (r : ClassRes) (h : r.locked = true) :
    rTalkingPoints ctx r = r := by
  unfold rTalkingPoints
  split
  · exact set_label_locked ctx r _ _ _ h
  · rfl

/-- Lock preservation: the generic vote runs only on unlocked records. -/
theorem genericVote_locked (ctx : OvCtx) (r : ClassRes) (h : r.locked = true) :
    genericVote ctx r = r := by
  unfold genericVote
  simp [h]

/-- Every rule after the pitch conflict rule, and the generic vote, leave a
locked record entirely unchanged. -/
theorem sorRest_locked (ctx : OvCtx) (r : ClassRes) (h : r.locked = true) :
    sorRest ctx r = r := by
  unfold sorRest
  rw [rMediaResponse_locked ctx r h, rInterviewFname_locked ctx r h,
      rXlsxMediaList_locked ctx r h, rStatement_locked ctx r h,
      rSpeakingFname_locked ctx r h, rConference_locked ctx r h,
      rEditorialCal_locked ctx r h, rMediaAnalysisPlan_locked ctx r h,
      rInterviewHay_locked ctx r h, rWorkback_locked ctx r h,
      rTimeline_locked ctx r h, rSpeakingHay_locked ctx r h,
      rDonations_locked ctx r h, rPitchEmbargo_locked ctx r h,
      rBio_locked ctx r h, rTalkingPoints_locked ctx r h,
      genericVote_locked ctx r h]

/-- Label membership transfer along two stages. -/
theorem docPres_trans {ctx : OvCtx} {a b c : ClassRes}
    (h1 : b.doc_type = a.doc_type ∨ b.doc_type ∈ ctx.allowed)
    (h2 : c.doc_type = b.doc_type ∨ c.doc_type ∈ ctx.allowed) :
    c.doc_type = a.doc_type ∨ c.doc_type ∈ ctx.allowed := by
  rcases h2 with h2 | h2
  · rcases h1 with h1 | h1
    · exact Or.inl (h2.trans h1)
    · exact Or.inr (h2 ▸ h1)
  · exact Or.inr h2

/-- Doc-type preservation: release markers rule. -/
theorem rRelMarkers_doc (ctx : OvCtx) (r : ClassRes) :
    (rRelMarkers ctx r).doc_type = r.doc_type ∨
    (rRelMarkers ctx r).doc_type ∈ ctx.allowed := by
  unfold rRelMarkers
  split
  · exact set_label_doc ctx r _ _ _
  · left; rfl

/-- Doc-type preservation: release filename rule. -/
theorem rRelFname_doc (ctx : OvCtx) (r : ClassRes) :
    (rRelFname ctx r).doc_type = r.doc_type ∨
    (rRelFname ctx r).doc_type ∈ ctx.allowed := by
  unfold rRelFname
  split
  · exact set_label_doc ctx r _ _ _
  · left; rfl

/-- Doc-type preservation: the pitch conflict rule only ever writes
`pitch_email` after checking it is allowed. -/
theorem rPitchConflict_doc (ctx : OvCtx) (r : ClassRes) :
    (rPitchConflict ctx r).doc_type = r.doc_type ∨
    (rPitchConflict ctx r).doc_type ∈ ctx.allowed := by
  unfold rPitchConflict
  repeat' split
  all_goals first
    | (left; rfl)
    | (right; simp only []; assumption)

/-- Doc-type preservation: media response rule. -/
theorem rMediaResponse_doc (ctx : OvCtx) (r : ClassRes) :
    (rMediaResponse ctx r).doc_type = r.doc_type ∨
    (rMediaResponse ctx r).doc_type ∈ ctx.allowed := by
  unfold rMediaResponse
  split
  · exact set_label_doc ctx r _ _ _
  · left; rfl

/-- Doc-type preservation: interview guide filename rule. -/
theorem rInterviewFname_doc (ctx : OvCtx) (r : ClassRes) :
    (rInterviewFname ctx r).doc_type = r.doc_type ∨
    (rInterviewFname ctx r).doc_type ∈ ctx.allowed := by
  unfold rInterviewFname
  repeat' split
  all_goals first
    | (left; rfl)
    | exact set_label_doc ctx r _ _ _

/-- Doc-type preservation: spreadsheet media list rule. -/
theorem rXlsxMediaList_doc (ctx : OvCtx) (r : ClassRes) :
    (rXlsxMediaList ctx r).doc_type = r.doc_type ∨
    (rXlsxMediaList ctx r).doc_type ∈ ctx.allowed := by
  unfold rXlsxMediaList
  split
  · exact set_label_doc ctx r _ _ _
  · left; rfl

/-- Doc-type preservation: statement filename rule. -/
theorem rStatement_doc (ctx : OvCtx) (r : ClassRes) :
    (rStatement ctx r).doc_type = r.doc_type ∨
    (rStatement ctx r).doc_type ∈ ctx.allowed := by
  unfold rStatement
  repeat' split
  all_goals first
    | (left; rfl)
    | exact set_label_doc ctx r _ _ _

/-- Doc-type preservation: speaking tracker filename rule. -/
theorem rSpeakingFname_doc (ctx : OvCtx) (r : ClassRes) :
    (rSpeakingFname ctx r).doc_type = r.doc_type ∨
    (rSpeakingFname ctx r).doc_type ∈ ctx.allowed := by
  unfold rSpeakingFname
  repeat' split
  all_goals first
    | (left; rfl)
    | exact set_label_doc ctx r _ _ _

/-- Doc-type preservation: conference proposal rule. -/
theorem rConference_doc (ctx : OvCtx) (r : ClassRes) :
    (rConference ctx r).doc_type = r.doc_type ∨
    (rConference ctx r).doc_type ∈ ctx.allowed := by
  unfold rConference
  split
  · exact set_label_doc ctx r _ _ _
  · left; rfl

/-- Doc-type preservation: editorial calendar rule. -/
theorem rEditorialCal_doc (ctx : OvCtx) (r : ClassRes) :
    (rEditorialCal ctx r).doc_type = r.doc_type ∨
    (rEditorialCal ctx r).doc_type ∈ ctx.allowed := by
  unfold rEditorialCal
  split
  · exact set_label_doc ctx r _ _ _
  · left; rfl

/-- Doc-type preservation: media analysis plan rule. -/
theorem rMediaAnalysisPlan_doc (ctx : OvCtx) (r : ClassRes) :
    (rMediaAnalysisPlan ctx r).doc_type = r.doc_type ∨
    (rMediaAnalysisPlan ctx r).doc_type ∈ ctx.allowed := by
  unfold rMediaAnalysisPlan
  split
  · exact set_label_doc ctx r _ _ _
  · left; rfl

/-- Doc-type preservation: interview guide haystack rule. -/
theorem rInterviewHay_doc (ctx : OvCtx) (r : ClassRes) :
    (rInterviewHay ctx r).doc_type = r.doc_type ∨
    (rInterviewHay ctx r).doc_type ∈ ctx.allowed := by
  unfold rInterviewHay
  split
  · exact set_label_doc ctx r _ _ _
  · left; rfl

/-- Doc-type preservation: workback plan rule. -/
theorem rWorkback_doc (ctx : OvCtx) (r : ClassRes) :
    (rWorkback ctx r).doc_type = r.doc_type ∨
    (rWorkback ctx r).doc_type ∈ ctx.allowed := by
  unfold rWorkback
  split
  · exact set_label_doc ctx r _ _ _
  · left; rfl

/-- Doc-type preservation: timeline rule. -/
theorem rTimeline_doc (ctx : OvCtx) (r : ClassRes) :
    (rTimeline ctx r).doc_type = r.doc_type ∨
    (rTimeline ctx r).doc_type ∈ ctx.allowed := by
  unfold rTimeline
  repeat' split
  all_goals first
    | (left; rfl)
    | exact set_label_doc ctx r _ _ _

/-- Doc-type preservation: speaking tracker haystack rule. -/
theorem rSpeakingHay_doc (ctx : OvCtx) (r : ClassRes) :
    (rSpeakingHay ctx r).doc_type = r.doc_type ∨
    (rSpeakingHay ctx r).doc_type ∈ ctx.allowed := by
  unfold rSpeakingHay
  repeat' split
  all_goals first
    | (left; rfl)
    | exact set_label_doc ctx r _ _ _

/-- Doc-type preservation: donations rule. -/
theorem rDonations_doc (ctx : OvCtx) (r : ClassRes) :
    (rDonations ctx r).doc_type = r.doc_type ∨
    (rDonations ctx r).doc_type ∈ ctx.allowed := by
  unfold rDonations
  split
  · exact set_label_doc ctx r _ _ _
  · left; rfl

/-- Doc-type preservation: pitch or embargo filename rule. -/
theorem rPitchEmbargo_doc (ctx : OvCtx) (r : ClassRes) :
    (rPitchEmbargo ctx r).doc_type = r.doc_type ∨
    (rPitchEmbargo ctx r).doc_type ∈ ctx.allowed := by
  unfold rPitchEmbargo
  split
  · exact set_label_doc ctx r _ _ _
  · left; rfl

/-- Doc-type preservation: bio rule. -/
theorem rBio_doc (ctx : OvCtx) (r : ClassRes) :
    (rBio ctx r).doc_type = r.doc_type ∨
    (rBio ctx r).doc_type ∈ ctx.allowed := by
  unfold rBio
  split
  · exact set_label_doc ctx r _ _ _
  · left; rfl

/-- Doc-type preservation: talking points rule. -/
theorem rTalkingPoints_doc (ctx : OvCtx) (r : ClassRes) :
    (rTalkingPoints ctx r).doc_type = r.doc_type ∨
    (rTalkingPoints ctx r).doc_type ∈ ctx.allowed := by
  unfold rTalkingPoints
  split
  · exact set_label_doc ctx r _ _ _
  · left; rfl

/-- Doc-type preservation: the generic vote only applies a candidate that
passed the membership check. -/
theorem genericVote_doc (ctx : OvCtx) (r : ClassRes) :
    (genericVote ctx r).doc_type = r.doc_type ∨
    (genericVote ctx r).doc_type ∈ ctx.allowed := by
  unfold genericVote
  split
  · left; rfl
  · dsimp only
    split
    · next h =>
      right
      simpa using h.2.2.1
    · left; rfl

/-- Doc-type preservation through all the rules after the pitch conflict
rule and through the generic vote. -/
theorem sorRest_doc (ctx : OvCtx) (r : ClassRes) :
    (sorRest ctx r).doc_type = r.doc_type ∨
    (sorRest ctx r).doc_type ∈ ctx.allowed := by
  unfold sorRest
  have h1 := rMediaResponse_doc ctx r
  have h2 := docPres_trans h1 (rInterviewFname_doc ctx _)
  have h3 := docPres_trans h2 (rXlsxMediaList_doc ctx _)
  have h4 := docPres_trans h3 (rStatement_doc ctx _)
  have h5 := docPres_trans h4 (rSpeakingFname_doc ctx _)
  have h6 := docPres_trans h5 (rConference_doc ctx _)
  have h7 := docPres_trans h6 (rEditorialCal_doc ctx _)
  have h8 := docPres_trans h7 (rMediaAnalysisPlan_doc ctx _)
  have h9 := docPres_trans h8 (rInterviewHay_doc ctx _)
  have h10 := docPres_trans h9 (rWorkback_doc ctx _)
  have h11 := docPres_trans h10 (rTimeline_doc ctx _)
  have h12 := docPres_trans h11 (rSpeakingHay_doc ctx _)
  have h13 := docPres_trans h12 (rDonations_doc ctx _)
  have h14 := docPres_trans h13 (rPitchEmbargo_doc ctx _)
  have h15 := docPres_trans h14 (rBio_doc ctx _)
  have h16 := docPres_trans h15 (rTalkingPoints_doc ctx _)
  exact docPres_trans h16 (genericVote_doc ctx _)

/-- Doc-type preservation through the whole rule chain of
`soft_override`. -/
theorem sorCore_doc (ctx : OvCtx) (r : ClassRes) :
    (sorCore ctx r).doc_type = r.doc_type ∨
    (sorCore ctx r).doc_type ∈ ctx.allowed := by
  unfold sorCore
  have h1 := rRelMarkers_doc ctx r
  have h2 := docPres_trans h1 (rRelFname_doc ctx _)
  have h3 := docPres_trans h2 (rPitchConflict_doc ctx _)
  exact docPres_trans h3 (sorRest_doc ctx _)

/-- The override engine as a whole either keeps the incoming label or
writes an allowed one. -/
theorem soft_override_doc (result : ClassRes) (source_path extract_type sample : Str)
    (synonyms_map patterns_map : Str → List Str) (allowed : List Str) :
    (soft_override result source_path extract_type sample
      synonyms_map patterns_map allowed).doc_type = result.doc_type ∨
    (soft_override result source_path extract_type sample
      synonyms_map patterns_map allowed).doc_type ∈ allowed := by
  unfold soft_override
  exact sorCore_doc
    (mkOvCtx result source_path extract_type sample synonyms_map patterns_map allowed)
    result

/-- The coercer either emits the unknown sentinel or keeps a label of the
allowed list. -/
theorem coerce_doc (data : RawOut) (allowed : List Str) (u : Str) :
    (coerce_to_allowed data allowed u).doc_type = u ∨
    (coerce_to_allowed data allowed u).doc_type ∈ allowed := by
  unfold coerce_to_allowed
  cases hd : data.doc_type with
  | none => simp [hd]
  | some l =>
    by_cases hm : l ∈ allowed
    · right; simp [hd, hm]
    · left; simp [hd, hm]

/-- The constraint enforcer either keeps the incoming label or writes one
of the extract-kind subset. -/
theorem enforce_doc (data : ClassRes) (et hay fn : Str) :
    (enforce_extract_constraints data et hay fn).doc_type = data.doc_type ∨
    (enforce_extract_constraints data et hay fn).doc_type ∈
      (ALLOWED_BY_EXTRACT et).getD [] := by
  unfold enforce_extract_constraints
  cases hA : ALLOWED_BY_EXTRACT et with
  | none => left; rfl
  | some allowed =>
    dsimp only
    by_cases hin : data.doc_type ∈ allowed
    · rw [if_pos hin]
      left; rfl
    · rw [if_neg hin]
      split
      · next g heq =>
        by_cases hg : g ∈ allowed
        · rw [if_pos hg]
          right
          simpa using hg
        · rw [if_neg hg]
          left; rfl
      · left; rfl

/-- The per-document stage chain always lands in the taxonomy labels, the
unknown sentinel, or the hardcoded extract-kind subset. -/
theorem classifyOne_doc (cfg : RunCfg) (raw : RawOut) (spath ekind sample : Str) :
    (classifyOne cfg raw spath ekind sample).doc_type ∈ cfg.labels ∨
    (classifyOne cfg raw spath ekind sample).doc_type = UNKNOWN_LABEL ∨
    (classifyOne cfg raw spath ekind sample).doc_type ∈
      (ALLOWED_BY_EXTRACT ekind).getD [] := by
  unfold classifyOne
  dsimp only
  have hc := coerce_doc raw cfg.labels UNKNOWN_LABEL
  have hs := soft_override_doc (coerce_to_allowed raw cfg.labels UNKNOWN_LABEL)
    spath ekind sample cfg.synonyms_map cfg.patterns_map cfg.labels
  have he := enforce_doc
    (soft_override (coerce_to_allowed raw cfg.labels UNKNOWN_LABEL)
      spath ekind sample cfg.synonyms_map cfg.patterns_map cfg.labels)
    ekind
    (mainHay spath
      (soft_override (coerce_to_allowed raw cfg.labels UNKNOWN_LABEL)
        spath ekind sample cfg.synonyms_map cfg.patterns_map cfg.labels).doc_subtype
      sample)
    (pathName spath)
  rcases he with he | he
  · rcases hs with hs | hs
    · rcases hc with hc | hc
      · right; left; exact (he.trans hs).trans hc
      · left; exact (he.trans hs) ▸ hc
    · left; exact he ▸ hs
  · right; right; exact he

/-- A record whose nonempty hash is already checkpointed is skipped and
changes nothing. -/
theorem procOne_skip (cfg : RunCfg) (o : Rec → Except Str RawOut)
    (seen : List Str) (prev : Option ClassRes) (rec : Rec)
    (h1 : rec.sha ≠ []) (h2 : rec.sha ∈ seen) :
    procOne cfg o seen prev rec = .ok ([], [], prev) := by
  unfold procOne
  rw [if_pos (And.intro h1 h2)]

/-- A record that yields an ok iteration was either skipped because its
hash is checkpointed, or it contributed a row carrying its own hash. -/
theorem procOne_sha_cover {cfg : RunCfg} {o : Rec → Except Str RawOut}
    {seen : List Str} {prev : Option ClassRes} {rec : Rec}
    {rs : List Row} {ts : List TriageRow} {d : Option ClassRes}
    (h : procOne cfg o seen prev rec = .ok (rs, ts, d)) :
    (rec.sha ≠ [] ∧ rec.sha ∈ seen) ∨ rec.sha ∈ rs.map Row.sha := by
  by_cases hc : rec.sha ≠ [] ∧ rec.sha ∈ seen
  · exact Or.inl hc
  · right
    unfold procOne at h
    rw [if_neg hc] at h
    dsimp only at h
    cases ho : o rec with
    | ok raw =>
      rw [ho] at h
      dsimp only at h
      simp only [Except.ok.injEq, Prod.mk.injEq] at h
      obtain ⟨hrs, -, -⟩ := h
      subst hrs
      simp
    | error e =>
      rw [ho] at h
      dsimp only at h
      cases prev with
      | none => simp at h
      | some dp =>
        dsimp only at h
        simp only [Except.ok.injEq, Prod.mk.injEq] at h
        obtain ⟨hrs, -, -⟩ := h
        subst hrs
        simp

/-- Every row contributed by one iteration respects the label universe:
taxonomy labels, the unknown sentinel, or the extract-kind subset of its
own extract type. -/
theorem procOne_doc {cfg : RunCfg} {o : Rec → Except Str RawOut}
    {seen : List Str} {prev : Option ClassRes} {rec : Rec}
    {rs : List Row} {ts : List TriageRow} {d : Option ClassRes}
    (h : procOne cfg o seen prev rec = .ok (rs, ts, d)) :
    ∀ row ∈ rs, row.doc_type ∈ cfg.labels ∨ row.doc_type = UNKNOWN_LABEL ∨
      row.doc_type ∈ (ALLOWED_BY_EXTRACT row.extract_type).getD [] := by
  by_cases hc : rec.sha ≠ [] ∧ rec.sha ∈ seen
  · rw [procOne_skip cfg o seen prev rec hc.1 hc.2] at h
    simp only [Except.ok.injEq, Prod.mk.injEq] at h
    obtain ⟨hrs, -, -⟩ := h
    subst hrs
    intro row hrow
    cases hrow
  · unfold procOne at h
    rw [if_neg hc] at h
    dsimp only at h
    cases ho : o rec with
    | ok raw =>
      rw [ho] at h
      dsimp only at h
      simp only [Except.ok.injEq, Prod.mk.injEq] at h
      obtain ⟨hrs, -, -⟩ := h
      subst hrs
      intro row hrow
      rcases List.mem_singleton.mp hrow with rfl
      exact classifyOne_doc cfg raw rec.source_path rec.ekind
        (build_sample rec.ekind rec.extract SAMPLE_CHARS)
    | error e =>
      rw [ho] at h
      dsimp only at h
      cases prev with
      | none => simp at h
      | some dp =>
        dsimp only at h
        simp only [Except.ok.injEq, Prod.mk.injEq] at h
        obtain ⟨hrs, -, -⟩ := h
        subst hrs
        intro row hrow
        rcases List.mem_singleton.mp hrow with rfl
        right; left; rfl

/-- Decomposition of a successful loop iteration: the persisted file is
untouched and the in-memory rows grow by exactly what `procOne`
contributed. -/
theorem loopStep_ok {cfg : RunCfg} {o : Rec → Except Str RawOut}
    {seen : List Str} {st st1 : LoopState} {rec : Rec}
    (hs : loopStep cfg o seen st rec = .ok st1) :
    ∃ rs ts, procOne cfg o seen st.data rec = .ok (rs, ts, st1.data) ∧
      st1.persisted = st.persisted ∧ st1.rows = st.rows ++ rs := by
  unfold loopStep at hs
  cases hp : procOne cfg o seen st.data rec with
  | error e =>
    rw [hp] at hs
    exact absurd hs (by simp)
  | ok triple =>
    obtain ⟨rs, ts, d⟩ := triple
    rw [hp] at hs
    dsimp only at hs
    injection hs with h1
    subst h1
    exact ⟨rs, ts, rfl, rfl, rfl⟩

/-- Decomposition of a successful loop: the persisted file is untouched,
and the in-memory rows grow only by rows that respect the label
universe. -/
theorem loopRun_ok {cfg : RunCfg} {o : Rec → Except Str RawOut}
    {seen : List Str} {st st2 : LoopState} {recs : List Rec}
    (h : loopRun cfg o seen st recs = .ok st2) :
    st2.persisted = st.persisted ∧
    ∃ new, st2.rows = st.rows ++ new ∧
      ∀ row ∈ new, row.doc_type ∈ cfg.labels ∨ row.doc_type = UNKNOWN_LABEL ∨
        row.doc_type ∈ (ALLOWED_BY_EXTRACT row.extract_type).getD [] := by
  induction recs generalizing st with
  | nil =>
    simp only [loopRun, Except.ok.injEq] at h
    subst h
    exact ⟨rfl, [], by simp, by simp⟩
  | cons rec rest ih =>
    simp only [loopRun] at h
    cases hs : loopStep cfg o seen st rec with
    | error e => rw [hs] at h; simp at h
    | ok st1 =>
      rw [hs] at h
      dsimp only at h
      obtain ⟨rs, ts, hproc, hpers, hrows⟩ := loopStep_ok hs
      obtain ⟨hpers2, new2, hrows2, hdoc2⟩ := ih h
      refine ⟨hpers2.trans hpers, rs ++ new2, ?_, ?_⟩
      · rw [hrows2, hrows, List.append_assoc]
      · intro row hrow
        rcases List.mem_append.mp hrow with hrow | hrow
        · exact procOne_doc hproc row hrow
        · exact hdoc2 row hrow

/-- Every record of a successful loop is either skipped against the
checkpoint or ends with its hash among the in-memory rows. -/
theorem loopRun_sha_cover {cfg : RunCfg} {o : Rec → Except Str RawOut}
    {seen : List Str} {st st2 : LoopState} {recs : List Rec}
    (h : loopRun cfg o seen st recs = .ok st2) :
    ∀ rec ∈ recs, (rec.sha ≠ [] ∧ rec.sha ∈ seen) ∨
      rec.sha ∈ st2.rows.map Row.sha := by
  induction recs generalizing st with
  | nil => intro rec hrec; cases hrec
  | cons rc rest ih =>
    simp only [loopRun] at h
    cases hs : loopStep cfg o seen st rc with
    | error e => rw [hs] at h; simp at h
    | ok st1 =>
      rw [hs] at h
      dsimp only at h
      intro rec hrec
      rcases List.mem_cons.mp hrec with rfl | hrec
      · obtain ⟨rs, ts, hproc, -, hrows⟩ := loopStep_ok hs
        rcases procOne_sha_cover hproc with hcov | hcov
        · exact Or.inl hcov
        · right
          obtain ⟨-, new2, hrows2, -⟩ := loopRun_ok h
          rw [hrows2, hrows]
          simp only [List.map_append, List.mem_append]
          left; right
          exact hcov
      · exact ih h rec hrec

/-- A loop in which every record has a nonempty checkpointed hash is a
no-op. -/
theorem loopRun_skip_all (cfg : RunCfg) (o : Rec → Except Str RawOut)
    (seen : List Str) (st : LoopState) (recs : List Rec)
    (hall : ∀ rec ∈ recs, rec.sha ≠ [] ∧ rec.sha ∈ seen) :
    loopRun cfg o seen st recs = .ok st := by
  induction recs generalizing st with
  | nil => simp [loopRun]
  | cons rc rest ih =>
    have hst : loopStep cfg o seen st rc = .ok st := by
      unfold loopStep
      rw [procOne_skip cfg o seen st.data rc (hall rc (by simp)).1
        (hall rc (by simp)).2]
      dsimp only
      cases st
      simp
    simp only [loopRun]
    rw [hst]
    exact ih st (fun rec hrec => hall rec (List.mem_cons_of_mem rc hrec))

/-- C9: for every extract type, extract payload and budget, the sample
built by `build_sample` is at most `max_chars` long, and the function is
deterministic — equal inputs give equal outputs. -/
theorem claim_C9_build_sample_bounded_deterministic :
    (∀ (et : Str) (obj : ExtractObj) (mc : Nat),
      (build_sample et obj mc).length ≤ mc) ∧
    (∀ (et1 et2 : Str) (o1 o2 : ExtractObj) (m1 m2 : Nat),
      et1 = et2 → o1 = o2 → m1 = m2 →
        build_sample et1 o1 m1 = build_sample et2 o2 m2) := by
  constructor
  · intro et obj mc
    unfold build_sample
    split
    · dsimp only
      split
      · assumption
      · next hlen =>
        split
        · next hsmall =>
          simp only [List.length_take]
          omega
        · next hbig =>
          have hj : ("\n...\n".data).length = 5 := rfl
          simp only [List.length_append, List.length_take, hj] at hbig ⊢
          split
          · simp only [lastN, List.length_drop]
            omega
          · simp only [List.length_nil]
            omega
    · split
      · simp only [List.length_take]
        omega
      · split
        · simp only [List.length_take]
          omega
        · simp
  · intro et1 et2 o1 o2 m1 m2 h1 h2 h3
    rw [h1, h2, h3]

/-- Witness for C9 at a concrete input. -/
theorem claim_C9_witness :
    (build_sample "text".data textObjHello 3).length ≤ 3 ∧
    ("text".data = "text".data → textObjHello = textObjHello → 3 = 3 →
      build_sample "text".data textObjHello 3 =
        build_sample "text".data textObjHello 3) :=
  ⟨claim_C9_build_sample_bounded_deterministic.1 "text".data textObjHello 3,
   claim_C9_build_sample_bounded_deterministic.2 "text".data "text".data
     textObjHello textObjHello 3 3⟩

/-- C10: when an override rule fires on an unlocked record but its target
label is not in the allowed list, `set_label` keeps the label unchanged,
still raises the confidence to at least the floor, and still transfers the
lock flag of the rule. -/
theorem claim_C10_set_label_skips_label_but_locks (ctx : OvCtx) (r : ClassRes)
    (lbl : Str) (fl : ℚ) (lk : Bool)
    (h1 : r.locked = false) (h2 : lbl ∉ ctx.allowed) :
    (set_label ctx r lbl fl lk).doc_type = r.doc_type ∧
    (set_label ctx r lbl fl lk).confidence = max r.confidence fl ∧
    fl ≤ (set_label ctx r lbl fl lk).confidence ∧
    (set_label ctx r lbl fl lk).locked = lk := by
  unfold set_label
  have hcond : ¬ (lbl ∈ ctx.allowed ∧ r.doc_type ≠ lbl) := fun hc => h2 hc.1
  cases lk <;> simp [h1, hcond, le_max_right]

/-- Witness for C10 at a concrete input. -/
theorem claim_C10_witness :
    resBase.locked = false ∧ "zzz".data ∉ ctxPitchRelease.allowed ∧
    ((set_label ctxPitchRelease resBase "zzz".data (mkRat 9 10) true).doc_type
        = resBase.doc_type ∧
      (set_label ctxPitchRelease resBase "zzz".data (mkRat 9 10) true).confidence
        = max resBase.confidence (mkRat 9 10) ∧
      mkRat 9 10 ≤
        (set_label ctxPitchRelease resBase "zzz".data (mkRat 9 10) true).confidence ∧
      (set_label ctxPitchRelease resBase "zzz".data (mkRat 9 10) true).locked = true) :=
  ⟨by decide, by decide,
   claim_C10_set_label_skips_label_but_locks ctxPitchRelease resBase "zzz".data
     (mkRat 9 10) true (by decide) (by decide)⟩

/-- C3 counterexample: a result coerced to the unknown sentinel (oracle
label `foo` not in the taxonomy) whose filename contains `release` ends
the pipeline with `coerced = true` and confidence 0.9, above the claimed
0.6 cap — the release filename rule raises the confidence floor after the
coercer capped it. -/
theorem claim_C3_counterexample :
    (classifyOne cfgPR rawFoo "release.docx".data "text".data "hello".data).coerced
      = true ∧
    ¬ (classifyOne cfgPR rawFoo "release.docx".data "text".data
        "hello".data).confidence ≤ mkRat 6 10 ∧
    (classifyOne cfgPR rawFoo "release.docx".data "text".data
        "hello".data).confidence = mkRat 9 10 := by
  decide

/-- C3 amended: the cap `coerced = true → confidence ≤ 0.6` holds at the
output of the coercer stage (`coerce_to_allowed`); later stages may raise
the confidence above 0.6 while `coerced` stays true. -/
theorem claim_C3_amended_coercer_caps (data : RawOut) (allowed : List Str)
    (u : Str) (h : (coerce_to_allowed data allowed u).coerced = true) :
    (coerce_to_allowed data allowed u).confidence ≤ mkRat 6 10 := by
  unfold coerce_to_allowed at h ⊢
  cases hd : data.doc_type with
  | none =>
    simp only [hd]
    exact min_le_right _ _
  | some l =>
    by_cases hm : l ∈ allowed
    · rw [hd] at h
      simp [hm] at h
    · simp only [hd]
      rw [if_neg (by simpa using hm)]
      exact min_le_right _ _

/-- Witness for the amended C3 at a concrete input. -/
theorem claim_C3_amended_witness :
    (coerce_to_allowed rawFoo [] UNKNOWN_LABEL).coerced = true ∧
    (coerce_to_allowed rawFoo [] UNKNOWN_LABEL).confidence ≤ mkRat 6 10 :=
  ⟨by decide, claim_C3_amended_coercer_caps rawFoo [] UNKNOWN_LABEL (by decide)⟩

/-- C6 counterexample: with the API key set and the extracted input
present, an empty taxonomy does not abort the run — the batch proceeds and
classifies a document (one ledger row is produced), contradicting the
claimed fatal exit before any document is classified. -/
theorem claim_C6_counterexample :
    mainStartupAborts true true [] = false ∧
    (runMain cfgEmptyTax (fun _ => .ok rawFoo) [] [recTextA]).toOption.map
      (fun st => st.persisted.length) = some 1 := by
  decide

/-- C6 amended: the startup aborts exactly when the API key is unset or the
extracted input file is missing, independently of the taxonomy labels; a
missing or empty taxonomy instead makes the coercer send every document to
the unknown sentinel with `coerced = true`. -/
theorem claim_C6_amended_no_taxonomy_check :
    (∀ (a b : Bool) (labels : List Str),
      mainStartupAborts a b labels = (!a || !b)) ∧
    (∀ (data : RawOut) (u : Str),
      (coerce_to_allowed data [] u).doc_type = u ∧
      (coerce_to_allowed data [] u).coerced = true) := by
  constructor
  · intro a b labels
    rfl
  · intro data u
    unfold coerce_to_allowed
    cases hd : data.doc_type <;> simp [hd]

/-- C8: when the filename contains `pitch`, the haystack shows at least one
release boilerplate marker and at least one unfilled placeholder token, and
`pitch_email` is allowed, the override engine ends with
`doc_type = pitch_email`, confidence at most 0.60, and the lock set during
the stage (the transient lock flag is stripped when the stage returns),
regardless of whether an earlier press release rule had already fired and
locked. -/
theorem claim_C8_pitch_conflict_routes_to_review (r : ClassRes)
    (spath et sample : Str) (syn pats : Str → List Str) (allowed : List Str)
    (hp : pyIn "pitch".data (lowerS (pathName spath)) = true)
    (hb : hasAny pitch_boilerplate (sorHay spath r.doc_subtype sample) = true)
    (hpl : hasAny pitch_placeholders (sorHay spath r.doc_subtype sample) = true)
    (ha : "pitch_email".data ∈ allowed) :
    (sorCore (mkOvCtx r spath et sample syn pats allowed) r).locked = true ∧
    (soft_override r spath et sample syn pats allowed).doc_type
      = "pitch_email".data ∧
    (soft_override r spath et sample syn pats allowed).confidence
      ≤ mkRat 6 10 := by
  have hp2 : pyIn "pitch".data
      (mkOvCtx r spath et sample syn pats allowed).fnameL = true := hp
  have hb2 : hasAny pitch_boilerplate
      (mkOvCtx r spath et sample syn pats allowed).hay = true := hb
  have hpl2 : hasAny pitch_placeholders
      (mkOvCtx r spath et sample syn pats allowed).hay = true := hpl
  have ha2 : "pitch_email".data ∈
      (mkOvCtx r spath et sample syn pats allowed).allowed := ha
  have hpitch : ∀ (x : ClassRes),
      rPitchConflict (mkOvCtx r spath et sample syn pats allowed) x =
        { x with doc_type := "pitch_email".data,
                 confidence := min x.confidence (mkRat 60 100),
                 locked := true } := by
    intro x
    unfold rPitchConflict
    rw [if_pos hp2, if_pos (And.intro hb2 hpl2), if_pos ha2]
  have hcore : sorCore (mkOvCtx r spath et sample syn pats allowed) r =
      { rRelFname (mkOvCtx r spath et sample syn pats allowed)
          (rRelMarkers (mkOvCtx r spath et sample syn pats allowed) r) with
        doc_type := "pitch_email".data,
        confidence := min (rRelFname (mkOvCtx r spath et sample syn pats allowed)
          (rRelMarkers (mkOvCtx r spath et sample syn pats allowed) r)).confidence
          (mkRat 60 100),
        locked := true } := by
    unfold sorCore
    rw [hpitch]
    exact sorRest_locked _ _ rfl
  refine ⟨by rw [hcore], ?_, ?_⟩
  · unfold soft_override
    dsimp only
    rw [hcore]
  · unfold soft_override
    dsimp only
    rw [hcore]
    exact min_le_right _ _

/-- Witness for C8 at a concrete input. -/
theorem claim_C8_witness :
    (pyIn "pitch".data (lowerS (pathName "big_media_pitch.docx".data)) = true ∧
     hasAny pitch_boilerplate (sorHay "big_media_pitch.docx".data
       resBase.doc_subtype "for immediate release [contact name] xxx, 2024".data)
       = true ∧
     hasAny pitch_placeholders (sorHay "big_media_pitch.docx".data
       resBase.doc_subtype "for immediate release [contact name] xxx, 2024".data)
       = true ∧
     "pitch_email".data ∈ ["pitch_email".data]) ∧
    ((sorCore (mkOvCtx resBase "big_media_pitch.docx".data "text".data
        "for immediate release [contact name] xxx, 2024".data emptyMap emptyMap
        ["pitch_email".data]) resBase).locked = true ∧
     (soft_override resBase "big_media_pitch.docx".data "text".data
        "for immediate release [contact name] xxx, 2024".data emptyMap emptyMap
        ["pitch_email".data]).doc_type = "pitch_email".data ∧
     (soft_override resBase "big_media_pitch.docx".data "text".data
        "for immediate release [contact name] xxx, 2024".data emptyMap emptyMap
        ["pitch_email".data]).confidence ≤ mkRat 6 10) :=
  ⟨⟨by decide, by decide, by decide, by decide⟩,
   claim_C8_pitch_conflict_routes_to_review resBase "big_media_pitch.docx".data
     "text".data "for immediate release [contact name] xxx, 2024".data
     emptyMap emptyMap ["pitch_email".data]
     (by decide) (by decide) (by decide) (by decide)⟩

/-- When its guard fails, the pitch conflict rule changes nothing. -/
theorem rPitchConflict_noFire (ctx : OvCtx) (r : ClassRes)
    (h : pitchGuard ctx = false) : rPitchConflict ctx r = r := by
  unfold pitchGuard at h
  unfold rPitchConflict
  split
  · next h1 =>
    split
    · next h2 =>
      split
      · next h3 =>
        rw [h1, h2.1, h2.2] at h
        simp [h3] at h
      · rfl
    · rfl
  · rfl

/-- C2 counterexample, in two concrete scenarios.  First, a document named
`media_pitch_release.docx` whose body holds release boilerplate and a
placeholder: the release rules lock the record, and the pitch conflict
rule still changes `doc_type` afterwards (it bypasses the lock).  Second, a
spreadsheet named `release.xlsx`: the release filename rule locks
`press_release`, yet the extract-constraint enforcer (running after the
lock is stripped) relabels the final record to `media_list`. -/
theorem claim_C2_counterexample :
    ((rRelFname ctxPitchRelease (rRelMarkers ctxPitchRelease resUnmapped)).locked
        = true ∧
     (rPitchConflict ctxPitchRelease
        (rRelFname ctxPitchRelease (rRelMarkers ctxPitchRelease resUnmapped))).doc_type
       ≠ (rRelFname ctxPitchRelease
           (rRelMarkers ctxPitchRelease resUnmapped)).doc_type) ∧
    ((sorCore (mkOvCtx (coerce_to_allowed rawPR cfgPR.labels UNKNOWN_LABEL)
        "release.xlsx".data "xlsx_schema".data "x".data cfgPR.synonyms_map
        cfgPR.patterns_map cfgPR.labels)
        (coerce_to_allowed rawPR cfgPR.labels UNKNOWN_LABEL)).locked = true ∧
     (sorCore (mkOvCtx (coerce_to_allowed rawPR cfgPR.labels UNKNOWN_LABEL)
        "release.xlsx".data "xlsx_schema".data "x".data cfgPR.synonyms_map
        cfgPR.patterns_map cfgPR.labels)
        (coerce_to_allowed rawPR cfgPR.labels UNKNOWN_LABEL)).doc_type
       = "press_release".data ∧
     (classifyOne cfgPR rawPR "release.xlsx".data "xlsx_schema".data
        "x".data).doc_type = "media_list".data) := by
  decide

/-- C2 amended: once the lock is set, no subsequent `set_label`-based rule
and not the generic voter changes the record at all — the one in-engine
exception is the pitch conflict rule, which bypasses the lock by design;
and the lock flag is stripped when the override stage returns, so the
extract-constraint enforcer can still relabel afterwards. -/
theorem claim_C2_amended_lock_scope (ctx : OvCtx) (r : ClassRes)
    (hl : r.locked = true) (hng : pitchGuard ctx = false) :
    sorCore ctx r = r ∧
    (∀ (result : ClassRes) (sp et sa : Str) (syn pats : Str → List Str)
      (allowed : List Str),
      (soft_override result sp et sa syn pats allowed).locked = false) := by
  constructor
  · unfold sorCore
    rw [rRelMarkers_locked ctx r hl, rRelFname_locked ctx r hl,
        rPitchConflict_noFire ctx r hng, sorRest_locked ctx r hl]
  · intro result sp et sa syn pats allowed
    unfold soft_override
    rfl

/-- Witness for the amended C2 at a concrete input. -/
theorem claim_C2_amended_witness :
    ({ resBase with locked := true } : ClassRes).locked = true ∧
    pitchGuard (mkOvCtx resBase "m.docx".data "text".data "hello".data
      emptyMap emptyMap []) = false ∧
    (sorCore (mkOvCtx resBase "m.docx".data "text".data "hello".data
        emptyMap emptyMap [])
      { resBase with locked := true } = { resBase with locked := true } ∧
     ∀ (result : ClassRes) (sp et sa : Str) (syn pats : Str → List Str)
       (allowed : List Str),
       (soft_override result sp et sa syn pats allowed).locked = false) := by
  refine ⟨by decide, by decide, ?_⟩
  exact claim_C2_amended_lock_scope
    (mkOvCtx resBase "m.docx".data "text".data "hello".data emptyMap emptyMap [])
    { resBase with locked := true } (by decide) (by decide)

/-- C1 counterexample: with a taxonomy holding only `press_release`, a
spreadsheet document classified as `press_release` is relabelled by the
extract-constraint enforcer to `media_list` — a label that is neither in
the taxonomy nor the unknown sentinel — because the enforcer draws
replacements from its hardcoded extract-kind subset without checking the
taxonomy. -/
theorem claim_C1_counterexample :
    (runMain cfgPR (fun _ => .ok rawPR) [] [recXlsxA]).toOption.map
      (fun st => st.persisted.map Row.doc_type) = some ["media_list".data] ∧
    "media_list".data ∉ cfgPR.labels ∧
    "media_list".data ≠ UNKNOWN_LABEL := by
  decide

/-- C1 amended: every row persisted by the batch runner carries a label
from the taxonomy, or the unknown sentinel, or the hardcoded extract-kind
subset for its extract type (rows already present from earlier runs are
carried over unchanged); membership in the taxonomy alone is guaranteed
only when the extract-kind subsets are contained in the taxonomy. -/
theorem claim_C1_amended_label_universe (cfg : RunCfg)
    (o : Rec → Except Str RawOut) (csv0 : List Row) (recs : List Rec)
    (st : LoopState) (h : runMain cfg o csv0 recs = .ok st) :
    ∀ row ∈ st.persisted, row ∈ csv0 ∨ row.doc_type ∈ cfg.labels ∨
      row.doc_type = UNKNOWN_LABEL ∨
      row.doc_type ∈ (ALLOWED_BY_EXTRACT row.extract_type).getD [] := by
  unfold runMain at h
  cases hr : loopRun cfg o (csv0.map Row.sha)
      { persisted := csv0, rows := csv0, triage_rows := [], data := none } recs with
  | error e => rw [hr] at h; simp at h
  | ok stA =>
    rw [hr] at h
    dsimp only at h
    injection h with h
    subst h
    obtain ⟨-, new, hrows, hdoc⟩ := loopRun_ok hr
    intro row hrow
    unfold finalWrite at hrow
    dsimp only at hrow
    rw [hrows] at hrow
    rcases List.mem_append.mp hrow with hrow | hrow
    · exact Or.inl hrow
    · exact Or.inr (hdoc row hrow)

/-- Witness for the amended C1 at a concrete input. -/
theorem claim_C1_amended_witness :
    runMain cfgPR (fun _ => .ok rawPR) [rowSeen] [recTextA] =
      .ok ⟨[rowSeen], [rowSeen], [], none⟩ ∧
    ∀ row ∈ ([rowSeen] : List Row), row ∈ [rowSeen] ∨
      row.doc_type ∈ cfgPR.labels ∨ row.doc_type = UNKNOWN_LABEL ∨
      row.doc_type ∈ (ALLOWED_BY_EXTRACT row.extract_type).getD [] :=
  ⟨by decide,
   claim_C1_amended_label_universe cfgPR (fun _ => .ok rawPR) [rowSeen]
     [recTextA] ⟨[rowSeen], [rowSeen], [], none⟩ (by decide)⟩

/-- C4: the claim is right and the code is wrong.  When the very first
processed document raises (oracle failure after retries), the `except`
branch of `main` assigns `raw_data` but never `data`; the triage block
after the `try` then reads `data`, which has no binding, so the whole batch
aborts with a `NameError` before anything is written — instead of emitting
the worst-case row and continuing. -/
theorem claim_C4_first_document_failure_aborts_batch :
    runMain cfgPR (fun _ => .error "oracle failed after retries".data)
      [] [recTextA] = .error BatchErr.nameErrorData := by
  decide

/-- C5 counterexample: starting a fresh run, after the first document
completes its pipeline its row sits only in the in-memory list (one row
buffered) while the persisted ledger on disk is still empty — no row is
persisted before the next document is processed. -/
theorem claim_C5_counterexample :
    (loopStep cfgPR (fun _ => .ok rawPR) [] ⟨[], [], [], none⟩
      recTextA).toOption.map (fun st => (st.rows.length, st.persisted)) =
    some (1, []) := by
  decide

/-- C5 amended: the loop never writes the ledger — the persisted file is
unchanged across every iteration — and the whole in-memory row list
(prior rows plus the rows of this run) is written once after the loop, so
terminating a run after k completed documents loses all k of its rows
while rows from earlier completed runs survive. -/
theorem claim_C5_amended_single_end_write :
    (∀ (cfg : RunCfg) (o : Rec → Except Str RawOut) (seen : List Str)
      (st st2 : LoopState) (recs : List Rec),
      loopRun cfg o seen st recs = .ok st2 → st2.persisted = st.persisted) ∧
    (∀ (cfg : RunCfg) (o : Rec → Except Str RawOut) (csv0 : List Row)
      (recs : List Rec) (stF : LoopState),
      runMain cfg o csv0 recs = .ok stF →
        stF.persisted = stF.rows ∧ ∃ new, stF.rows = csv0 ++ new) := by
  constructor
  · intro cfg o seen st st2 recs h
    exact (loopRun_ok h).1
  · intro cfg o csv0 recs stF h
    unfold runMain at h
    cases hr : loopRun cfg o (csv0.map Row.sha)
        { persisted := csv0, rows := csv0, triage_rows := [], data := none }
        recs with
    | error e => rw [hr] at h; simp at h
    | ok stA =>
      rw [hr] at h
      dsimp only at h
      injection h with h
      subst h
      obtain ⟨-, new, hrows, -⟩ := loopRun_ok hr
      exact ⟨rfl, new, hrows⟩

/-- Witness for the amended C5 at a concrete input. -/
theorem claim_C5_amended_witness :
    loopRun cfgPR (fun _ => .ok rawPR) ["aa".data]
      ⟨[rowSeen], [rowSeen], [], none⟩ [recTextA] =
      .ok ⟨[rowSeen], [rowSeen], [], none⟩ ∧
    (⟨[rowSeen], [rowSeen], [], none⟩ : LoopState).persisted =
      (⟨[rowSeen], [rowSeen], [], none⟩ : LoopState).persisted :=
  ⟨by decide,
   claim_C5_amended_single_end_write.1 cfgPR (fun _ => .ok rawPR) ["aa".data]
     ⟨[rowSeen], [rowSeen], [], none⟩ ⟨[rowSeen], [rowSeen], [], none⟩
     [recTextA] (by decide)⟩

/-- C7: rerunning the batch over an unchanged document set (every record
carrying a nonempty content hash) appends zero new ledger rows — every
document whose hash is already recorded in the prior output is skipped, so
the second run returns the first run ledger unchanged, with an empty triage
queue and no document ever processed. -/
theorem claim_C7_idempotent_rerun (cfg : RunCfg)
    (o : Rec → Except Str RawOut) (csv0 : List Row) (recs : List Rec)
    (st1 : LoopState)
    (hsha : ∀ rec ∈ recs, rec.sha ≠ [])
    (h1 : runMain cfg o csv0 recs = .ok st1) :
    runMain cfg o st1.persisted recs =
      .ok ⟨st1.persisted, st1.persisted, [], none⟩ := by
  unfold runMain at h1
  cases hr : loopRun cfg o (csv0.map Row.sha)
      { persisted := csv0, rows := csv0, triage_rows := [], data := none } recs with
  | error e => rw [hr] at h1; simp at h1
  | ok stA =>
    rw [hr] at h1
    dsimp only at h1
    injection h1 with h1
    subst h1
    obtain ⟨-, new, hrowsA, -⟩ := loopRun_ok hr
    have hcov := loopRun_sha_cover hr
    unfold runMain
    rw [loopRun_skip_all cfg o _ _ recs ?_]
    · rfl
    · intro rec hrec
      refine ⟨hsha rec hrec, ?_⟩
      rcases hcov rec hrec with ⟨-, hmem⟩ | hmem
      · show rec.sha ∈ stA.rows.map Row.sha
        rw [hrowsA]
        simp only [List.map_append, List.mem_append]
        exact Or.inl hmem
      · exact hmem

/-- Witness for C7 at a concrete input. -/
theorem claim_C7_witness :
    (∀ rec ∈ ([recTextA] : List Rec), rec.sha ≠ []) ∧
    runMain cfgPR (fun _ => .ok rawPR) [rowSeen] [recTextA] =
      .ok ⟨[rowSeen], [rowSeen], [], none⟩ ∧
    runMain cfgPR (fun _ => .ok rawPR)
      (⟨[rowSeen], [rowSeen], [], none⟩ : LoopState).persisted [recTextA] =
      .ok ⟨[rowSeen], [rowSeen], [], none⟩ :=
  ⟨by decide, by decide,
   claim_C7_idempotent_rerun cfgPR (fun _ => .ok rawPR) [rowSeen] [recTextA]
     ⟨[rowSeen], [rowSeen], [], none⟩ (by decide) (by decide)⟩
